import Mathlib

/-!
Verification development for the access-time backend:
a shallow embedding of the accessibility rule engine
(`AccessibilityScanner.scanHtml`), the inbox client
(`MailHogService.checkForEmails`) and the SSE listener
(`EmailListenerService`), with theorems settling the specification
claims about them.
-/

namespace AccessTime

/-! ## JavaScript string primitives

The source manipulates JS strings with `trim`, `replace(/. ./g, ..)`,
`includes` and truthiness tests.  We model strings as Lean `String`
(lists of characters) and re-implement those primitives structurally so
that all proofs can evaluate them.
-/

/-- JS whitespace characters relevant to the bodies handled here
(space, tab, newline, carriage return, vertical tab, form feed). -/
def isWs (c : Char) : Bool :=
  c == ' ' || c == '\t' || c == '\n' || c == '\r' || c == '\x0b' || c == '\x0c'

/-- JS `String.prototype.trim`. -/
def jsTrim (s : String) : String :=
  ⟨((s.data.dropWhile isWs).reverse.dropWhile isWs).reverse⟩

/-- One left-to-right, non-overlapping global replacement pass over a
character list, as performed by JS `str.replace(/pat/g, rep)` with a
literal pattern.  The `fuel` argument is initialised to the length of
the list; each step consumes at least one character, so the `0` branch
is never reached from `replaceChars`. -/
def replaceAux (pat rep : List Char) : Nat → List Char → List Char
  | _, [] => []
  | 0, rest => rest
  | Nat.succ fuel, c :: cs =>
    if pat ≠ [] ∧ pat.isPrefixOf (c :: cs) then
      rep ++ replaceAux pat rep fuel (List.drop (pat.length - 1) cs)
    else
      c :: replaceAux pat rep fuel cs

/-- JS `str.replace(/pat/g, rep)` for a literal pattern `pat`. -/
def jsReplace (s pat rep : String) : String :=
  ⟨replaceAux pat.data rep.data s.data.length s.data⟩

/-- Does `pat` occur as a contiguous run of `l`? -/
def listIncludes (pat : List Char) : List Char → Bool
  | [] => pat.isEmpty
  | c :: cs => pat.isPrefixOf (c :: cs) || listIncludes pat cs

/-- JS `String.prototype.includes`. -/
def jsIncludes (s pat : String) : Bool :=
  listIncludes pat.data s.data

/-- JS `a || b` on strings: `b` when `a` is falsy (empty), else `a`. -/
def jsOr (a b : String) : String :=
  if a == "" then b else a

/-! ## Document model

`AccessibilityScanner.scanHtml` renders the HTML and then runs plain DOM
queries (`querySelectorAll` over `img`, `button`, `input`, `h1..h6`,
`a[href]`, `table`, `video`, `canvas`, plus `label[for=..]` lookups).
We embed the rendered document as its element list in document order,
with exactly the element attributes those queries read. -/

inductive Tag
  | img | button | input | heading | anchor | table | video | canvas | labelTag | other
deriving DecidableEq

structure Elem where
  tag : Tag
  /-- `img` alt attribute (`none` = attribute absent, DOM property ""). -/
  alt : Option String
  /-- `textContent` of the element. -/
  textContent : String
  /-- `aria-label` attribute (`none` = absent, `getAttribute` null). -/
  ariaLabel : Option String
  /-- `aria-labelledby` attribute. -/
  ariaLabelledby : Option String
  /-- `input` `type` property (defaults to "text" in the DOM). -/
  inputType : String
  /-- element `id` property ("" when absent). -/
  elemId : String
  /-- `label` `for` attribute. -/
  htmlFor : Option String
  /-- anchor `href` attribute (`none` = absent, so not matched by `a[href]`). -/
  href : Option String
  /-- heading level, `parseInt(tagName.charAt(1))` for `h1..h6`. -/
  level : Nat
  /-- number of `th` descendants of a `table`. -/
  thCount : Nat
  /-- `outerHTML` snippet. -/
  outerHTML : String
deriving DecidableEq

def baseElem (t : Tag) : Elem :=
  ⟨t, none, "", none, none, "text", "", none, none, 0, 0, ""⟩

/-! ## Findings and the ScanResult shape (src/types, part_005) -/

structure FindingNode where
  target : List String
  html : String
  failureSummary : Option String
deriving DecidableEq

structure Finding where
  id : String
  impact : Option String
  tags : List String
  description : String
  help : Option String
  helpUrl : Option String
  nodes : List FindingNode
deriving DecidableEq

structure ScanResult where
  violations : List Finding
  passes : List Finding
  incomplete : List Finding
  inapplicable : List Finding
deriving DecidableEq

/-- Rule-scoped positional target locator, e.g. `img[2]`. -/
def tgt (sel : String) (i : Nat) : String :=
  sel ++ "[" ++ toString i ++ "]"

/-! ## Rule 1: image-alt -/

def isImg (e : Elem) : Bool := e.tag == .img

/-- DOM `img.alt` property: the attribute value, or `""` when absent. -/
def altProp (e : Elem) : String := e.alt.getD ""

/-- `!imgElement.alt || imgElement.alt.trim() === ''` -/
def imgAltBad (e : Elem) : Bool :=
  altProp e == "" || jsTrim (altProp e) == ""

def imgViolF (i : Nat) (e : Elem) : Finding :=
  { id := "image-alt", impact := some "critical",
    tags := ["cat.text-alternatives", "wcag2a", "wcag111"],
    description := "Ensures images have alternate text",
    help := some "Images must have alternate text",
    helpUrl := some "https://dequeuniversity.com/rules/axe/4.0/image-alt",
    nodes := [⟨[tgt "img" i], e.outerHTML, some "Image missing alt text"⟩] }

def imgPassF (i : Nat) (e : Elem) : Finding :=
  { id := "image-alt", impact := none,
    tags := ["cat.text-alternatives", "wcag2a", "wcag111"],
    description := "Ensures images have alternate text",
    help := none, helpUrl := none,
    nodes := [⟨[tgt "img" i], e.outerHTML, none⟩] }

def imageAltViols (doc : List Elem) : List Finding :=
  (((doc.filter isImg).enum.filter fun p => imgAltBad p.2).map fun p => imgViolF p.1 p.2)

def imageAltPasses (doc : List Elem) : List Finding :=
  (((doc.filter isImg).enum.filter fun p => !imgAltBad p.2).map fun p => imgPassF p.1 p.2)

/-! ## Rule 2: button-name -/

def isButton (e : Elem) : Bool := e.tag == .button

/-- `!textContent?.trim() && !getAttribute('aria-label') && !getAttribute('aria-labelledby')` -/
def buttonBad (e : Elem) : Bool :=
  jsTrim e.textContent == "" && e.ariaLabel.getD "" == "" && e.ariaLabelledby.getD "" == ""

def buttonViolF (i : Nat) (e : Elem) : Finding :=
  { id := "button-name", impact := some "critical",
    tags := ["cat.name-role-value", "wcag2a", "wcag412"],
    description := "Ensures buttons have discernible text",
    help := some "Buttons must have discernible text",
    helpUrl := some "https://dequeuniversity.com/rules/axe/4.0/button-name",
    nodes := [⟨[tgt "button" i], e.outerHTML, some "Button missing accessible name"⟩] }

def buttonPassF (i : Nat) (e : Elem) : Finding :=
  { id := "button-name", impact := none,
    tags := ["cat.name-role-value", "wcag2a", "wcag412"],
    description := "Ensures buttons have discernible text",
    help := none, helpUrl := none,
    nodes := [⟨[tgt "button" i], e.outerHTML, none⟩] }

def buttonNameViols (doc : List Elem) : List Finding :=
  (((doc.filter isButton).enum.filter fun p => buttonBad p.2).map fun p => buttonViolF p.1 p.2)

def buttonNamePasses (doc : List Elem) : List Finding :=
  (((doc.filter isButton).enum.filter fun p => !buttonBad p.2).map fun p => buttonPassF p.1 p.2)

/-! ## Rule 3: label -/

def isInput (e : Elem) : Bool := e.tag == .input

def isLabelElem (e : Elem) : Bool := e.tag == .labelTag

def isHiddenInput (e : Elem) : Bool := e.inputType == "hidden"

/-- `document.querySelector('label[for="<id>"]')` finds some label. -/
def hasLabelFor (doc : List Elem) (i : String) : Bool :=
  doc.any fun e => isLabelElem e && e.htmlFor == some i

inductive LabelOutcome | viol | pass | inap
deriving DecidableEq

/-- The three-way branch of the input loop in `scanHtml`. -/
def labelOutcome (doc : List Elem) (e : Elem) : LabelOutcome :=
  if isHiddenInput e then .inap
  else if e.ariaLabel.getD "" == "" && e.ariaLabelledby.getD "" == "" then
    if hasLabelFor doc e.elemId then .pass else .viol
  else .pass

def labelViolF (i : Nat) (e : Elem) : Finding :=
  { id := "label", impact := some "critical",
    tags := ["cat.forms", "wcag2a", "wcag412"],
    description := "Ensures every form element has a label",
    help := some "Form elements must have labels",
    helpUrl := some "https://dequeuniversity.com/rules/axe/4.0/label",
    nodes := [⟨[tgt "input" i], e.outerHTML, some "Form input missing label"⟩] }

def labelPassF (i : Nat) (e : Elem) : Finding :=
  { id := "label", impact := none,
    tags := ["cat.forms", "wcag2a", "wcag412"],
    description := "Ensures every form element has a label",
    help := none, helpUrl := none,
    nodes := [⟨[tgt "input" i], e.outerHTML, none⟩] }

def labelInapF (i : Nat) (e : Elem) : Finding :=
  { id := "label", impact := none,
    tags := ["cat.forms", "wcag2a", "wcag412"],
    description := "Ensures every form element has a label",
    help := none, helpUrl := none,
    nodes := [⟨[tgt "input" i], e.outerHTML, none⟩] }

def labelViols (doc : List Elem) : List Finding :=
  (((doc.filter isInput).enum.filter fun p => labelOutcome doc p.2 == .viol).map
    fun p => labelViolF p.1 p.2)

def labelPasses (doc : List Elem) : List Finding :=
  (((doc.filter isInput).enum.filter fun p => labelOutcome doc p.2 == .pass).map
    fun p => labelPassF p.1 p.2)

def labelInaps (doc : List Elem) : List Finding :=
  (((doc.filter isInput).enum.filter fun p => labelOutcome doc p.2 == .inap).map
    fun p => labelInapF p.1 p.2)

/-! ## Rule 4: heading-order -/

def isHeading (e : Elem) : Bool := e.tag == .heading

def headViolF (i : Nat) (e : Elem) (lastLevel : Nat) : Finding :=
  { id := "heading-order", impact := some "moderate",
    tags := ["cat.semantics", "best-practice"],
    description := "Ensures headings have a correct hierarchy",
    help := some "Heading levels should only increase by one",
    helpUrl := some "https://dequeuniversity.com/rules/axe/4.0/heading-order",
    nodes := [⟨[tgt "heading" i], e.outerHTML,
      some ("Heading level " ++ toString e.level ++ " skipped from level " ++
        toString lastLevel)⟩] }

def headPassF (i : Nat) (e : Elem) : Finding :=
  { id := "heading-order", impact := none,
    tags := ["cat.semantics", "best-practice"],
    description := "Ensures headings have a correct hierarchy",
    help := none, helpUrl := none,
    nodes := [⟨[tgt "heading" i], e.outerHTML, none⟩] }

/-- The heading loop: walks headings in document order with the mutable
`lastLevel` (initially `0`), pushing one finding per heading into the
violation or pass list; `lastLevel` is updated to the current level
after every heading. -/
def headingWalk : List (Nat × Elem) → Nat → List Finding × List Finding
  | [], _ => ([], [])
  | (i, e) :: rest, lastLevel =>
    let res := headingWalk rest e.level
    if e.level > lastLevel + 1 ∧ 0 < lastLevel then
      (headViolF i e lastLevel :: res.1, res.2)
    else
      (res.1, headPassF i e :: res.2)

def headingViols (doc : List Elem) : List Finding :=
  (headingWalk (doc.filter isHeading).enum 0).1

def headingPasses (doc : List Elem) : List Finding :=
  (headingWalk (doc.filter isHeading).enum 0).2

/-! ## Rule 5: link-name -/

/-- Selector `a[href]`: anchors carrying an `href` attribute. -/
def isLinkHref (e : Elem) : Bool := e.tag == .anchor && e.href.isSome

def linkBad (e : Elem) : Bool :=
  let t := jsTrim e.textContent
  t == "" || t == "Click here" || t == "Read more" || t == "Download" || t == "Learn more"

def linkViolF (i : Nat) (e : Elem) : Finding :=
  { id := "link-name", impact := some "serious",
    tags := ["cat.name-role-value", "wcag2a", "wcag412"],
    description := "Ensures links have discernible text",
    help := some "Links must have discernible text",
    helpUrl := some "https://dequeuniversity.com/rules/axe/4.0/link-name",
    nodes := [⟨[tgt "a" i], e.outerHTML, some "Link text is not descriptive"⟩] }

def linkPassF (i : Nat) (e : Elem) : Finding :=
  { id := "link-name", impact := none,
    tags := ["cat.name-role-value", "wcag2a", "wcag412"],
    description := "Ensures links have discernible text",
    help := none, helpUrl := none,
    nodes := [⟨[tgt "a" i], e.outerHTML, none⟩] }

def linkNameViols (doc : List Elem) : List Finding :=
  (((doc.filter isLinkHref).enum.filter fun p => linkBad p.2).map fun p => linkViolF p.1 p.2)

def linkNamePasses (doc : List Elem) : List Finding :=
  (((doc.filter isLinkHref).enum.filter fun p => !linkBad p.2).map fun p => linkPassF p.1 p.2)

/-! ## Rule 6: table headers (code rule id `th-has-data-cells`) -/

def isTable (e : Elem) : Bool := e.tag == .table

def tableBad (e : Elem) : Bool := e.thCount == 0

def tableViolF (i : Nat) (e : Elem) : Finding :=
  { id := "th-has-data-cells", impact := some "moderate",
    tags := ["cat.tables", "wcag2a", "wcag131"],
    description := "Ensures that table headers are not empty",
    help := some "Table headers must not be empty",
    helpUrl := some "https://dequeuniversity.com/rules/axe/4.0/th-has-data-cells",
    nodes := [⟨[tgt "table" i], e.outerHTML, some "Table missing headers"⟩] }

def tablePassF (i : Nat) (e : Elem) : Finding :=
  { id := "th-has-data-cells", impact := none,
    tags := ["cat.tables", "wcag2a", "wcag131"],
    description := "Ensures that table headers are not empty",
    help := none, helpUrl := none,
    nodes := [⟨[tgt "table" i], e.outerHTML, none⟩] }

def tableViols (doc : List Elem) : List Finding :=
  (((doc.filter isTable).enum.filter fun p => tableBad p.2).map fun p => tableViolF p.1 p.2)

def tablePasses (doc : List Elem) : List Finding :=
  (((doc.filter isTable).enum.filter fun p => !tableBad p.2).map fun p => tablePassF p.1 p.2)

/-! ## Rules 7 and 8: video-caption, canvas-replaced-text -/

def isVideo (e : Elem) : Bool := e.tag == .video

def isCanvas (e : Elem) : Bool := e.tag == .canvas

def videoIncF : Finding :=
  { id := "video-caption", impact := some "moderate",
    tags := ["cat.time-and-media", "wcag2a", "wcag121"],
    description := "Ensures video elements have captions",
    help := none, helpUrl := none,
    nodes := [⟨["video"], "<video>", some "Video caption check requires manual review"⟩] }

def canvasInapF : Finding :=
  { id := "canvas-replaced-text", impact := none,
    tags := ["cat.text-alternatives", "wcag2a", "wcag111"],
    description := "Ensures canvas elements have replaced text",
    help := none, helpUrl := none,
    nodes := [] }

def videoIncomplete (doc : List Elem) : List Finding :=
  if (doc.filter isVideo).length > 0 then [videoIncF] else []

def canvasInapplicable (doc : List Elem) : List Finding :=
  if (doc.filter isCanvas).length == 0 then [canvasInapF] else []

/-! ## The engine: `AccessibilityScanner.scanHtml`'s evaluated body

The eight checks run sequentially; each pushes its findings into the
shared `violations` / `passes` / `incomplete` / `inapplicable` arrays,
so every collection is the concatenation of the per-rule contributions
in rule order. -/

def scanDocument (doc : List Elem) : ScanResult where
  violations :=
    imageAltViols doc ++ buttonNameViols doc ++ labelViols doc ++
      headingViols doc ++ linkNameViols doc ++ tableViols doc
  passes :=
    imageAltPasses doc ++ buttonNamePasses doc ++ labelPasses doc ++
      headingPasses doc ++ linkNamePasses doc ++ tablePasses doc
  incomplete := videoIncomplete doc
  inapplicable := labelInaps doc ++ canvasInapplicable doc

/-- `scanHtml` itself renders the request HTML into a document and
evaluates the checks on it; the rendering is the browser's and is kept
abstract as a parameter. -/
def scanHtml (render : String → List Elem) (html : String) : ScanResult :=
  scanDocument (render html)

/-! ## Inbox client: `MailHogService.checkForEmails` (part_004)

The MailHog payload is embedded with exactly the fields the client
reads: `ID`, `MIME.Parts` (each part's first `Content-Type` header and
`Body`), the top-level `Body`, `Content.Body` and the first
`Content.Headers.Subject` entry.  `Option` distinguishes an absent
(undefined) field from a present empty string. -/

structure MimePart where
  /-- `part.Headers['Content-Type'][0]`, `none` when headers are missing. -/
  contentType : Option String
  /-- `part.Body`. -/
  body : Option String
deriving DecidableEq

structure Message where
  ID : String
  /-- `MIME.Parts` (absent when the message is not multi-part). -/
  mimeParts : Option (List MimePart)
  /-- top-level `Body` field. -/
  body : Option String
  /-- `Content.Body`. -/
  contentBody : Option String
  /-- `Content.Headers.Subject[0]`. -/
  contentSubject : Option String
deriving DecidableEq

structure EmailData where
  hasNewEmail : Bool
  emailId : Option String
  htmlContent : Option String
  subject : Option String
deriving DecidableEq

/-- `Parts.find(part => contentType.includes(ty))`. -/
def findPart (parts : List MimePart) (ty : String) : Option MimePart :=
  parts.find? fun part => jsIncludes (part.contentType.getD "") ty

/-- The four global `replace` passes applied to the extracted body:
`\r\n`, `\n`, `\"`, `\t` (each a literal two-character escape sequence
in the payload) become newline, newline, quote, tab. -/
def unescapeBody (s : String) : String :=
  jsReplace (jsReplace (jsReplace (jsReplace s "\\r\\n" "\n") "\\n" "\n") "\\\"" "\"") "\\t" "\t"

/-- Body of an HTML-typed MIME part, when one exists. -/
def htmlPartBody (m : Message) : String :=
  match m.mimeParts with
  | some parts =>
    match findPart parts "text/html" with
    | some part => part.body.getD ""
    | none => ""
  | none => ""

/-- Body of a plain-text MIME part, when one exists. -/
def textPartBody (m : Message) : String :=
  match m.mimeParts with
  | some parts =>
    match findPart parts "text/plain" with
    | some part => part.body.getD ""
    | none => ""
  | none => ""

/-- The plain-text fallback content: a `text/plain` part body, else
`Content.Body` when truthy. -/
def fallbackText (m : Message) : String :=
  let t := textPartBody m
  if t == "" then m.contentBody.getD "" else t

/-- `<html><body><pre>` wrapper with newline characters turned into
`<br>` tags. -/
def wrapPlainText (t : String) : String :=
  "<html><body><pre>" ++ jsReplace t "\n" "<br>" ++ "</pre></body></html>"

/-- The three markup-extraction steps of `checkForEmails`, in
precedence order: an HTML-typed part's body, else the top-level `Body`
field when truthy, else `Content.Body` when truthy, else `''`. -/
def extractMarkup (m : Message) : String :=
  let html0 := htmlPartBody m
  let html1 := if html0 == "" && m.body.getD "" != "" then m.body.getD "" else html0
  if html1 == "" && m.contentBody.getD "" != "" then m.contentBody.getD "" else html1

/-- `checkForEmails` on a successfully fetched message list: extract
markup, unescape it once, and if the result is empty or whitespace fall
back to wrapped plain text (which is not unescaped). -/
def checkForEmails (messages : List Message) : EmailData :=
  match messages with
  | [] => ⟨false, none, none, none⟩
  | latest :: _ =>
    let subj := jsOr (latest.contentSubject.getD "") "Test Email"
    let html3 := unescapeBody (extractMarkup latest)
    if html3 == "" || (jsTrim html3).length == 0 then
      let t := fallbackText latest
      if t != "" then ⟨true, some latest.ID, some (wrapPlainText t), some subj⟩
      else ⟨true, some latest.ID, some "", some subj⟩
    else
      ⟨true, some latest.ID, some html3, some subj⟩

/-! ## Listener: `EmailListenerService` (part_002)

Events are the closed tagged variant actually constructed by the
service: `email_received`, `scan_complete`, `scan_error` and
`status_update` (the full value set of the `EmailEvent.type` union).
The polling-level catch broadcasts a `scan_error` whose data carries no
email id, modelled as `none`. -/

inductive EmailEvent
  | email_received (emailId : String) (subject : String) (hasContent : Bool)
  | scan_complete (emailId : String) (subject : String) (results : ScanResult)
  | scan_error (emailId : Option String) (message : String)
  | status_update (status : String) (message : String)
deriving DecidableEq

/-- The `type` discriminator string serialized on the SSE wire. -/
def eventType : EmailEvent → String
  | .email_received .. => "email_received"
  | .scan_complete .. => "scan_complete"
  | .scan_error .. => "scan_error"
  | .status_update .. => "status_update"

/-- `emailData.emailId !== this.lastEmailId`: the fetched id is
`string | undefined`, the cursor `string | null`, so the comparison is
false exactly when both are present and equal. -/
def strictNeq : Option String → Option String → Bool
  | some a, some b => a != b
  | _, _ => true

structure ListenerState where
  lastEmailId : Option String
  isPolling : Bool
  /-- attached SSE clients, in insertion order (a JS `Set`). -/
  clients : List Nat
deriving DecidableEq

def initialState : ListenerState := ⟨none, false, []⟩

/-- One tick of the `setInterval` body in `startPolling`.  `engine` is
the (possibly throwing) accessibility scan; `fetch` the result of
`checkForEmails` (`Except.error` = rejected promise, i.e. transport
failure).  Returns the updated state and the events broadcast by the
tick, in broadcast order. -/
def tickOk (engine : String → Except String ScanResult) (st : ListenerState)
    (d : EmailData) : ListenerState × List EmailEvent :=
  if d.hasNewEmail && strictNeq d.emailId st.lastEmailId then
    let st' := { st with lastEmailId := d.emailId }
    let content := d.htmlContent.getD ""
    let ev1 := EmailEvent.email_received (d.emailId.getD "") (d.subject.getD "") (content != "")
    if content != "" && (jsTrim content).length > 0 then
      match engine content with
      | .ok res => (st', [ev1, .scan_complete (d.emailId.getD "") (d.subject.getD "") res])
      | .error e => (st', [ev1, .scan_error d.emailId e])
    else
      (st', [ev1])
  else
    (st, [])

def tick (engine : String → Except String ScanResult) (st : ListenerState)
    (fetch : Except String EmailData) : ListenerState × List EmailEvent :=
  match fetch with
  | .error e => (st, [.scan_error none e])
  | .ok d => tickOk engine st d

/-- The synthetic status event sent to a newly attached client. -/
def statusEvent : EmailEvent := .status_update "listening" "Email listener active"

/-- `addClient`: add to the set, send the status event to that client
only (on a write failure the catch deletes the client again), then
start polling unless already polling.  Returns the new state, the
deliveries made as `(client, event)` pairs, and whether the
`Idle → Polling` transition fired. -/
def addClient (st : ListenerState) (c : Nat) (writeOk : Bool) :
    ListenerState × List (Nat × EmailEvent) × Bool :=
  let cs1 := if c ∈ st.clients then st.clients else st.clients ++ [c]
  let cs2 := if writeOk then cs1 else cs1.erase c
  let sent := if writeOk then [(c, statusEvent)] else []
  let started := !st.isPolling
  ({ st with clients := cs2, isPolling := true }, sent, started)

/-- The `close` handler registered in `addClient`: remove the client
and stop polling when the set drained.  Returns the new state and
whether `stopPolling` ran (the `Polling → Idle` transition). -/
def closeClient (st : ListenerState) (c : Nat) : ListenerState × Bool :=
  let cs := st.clients.erase c
  if cs.isEmpty then ({ st with clients := cs, isPolling := false }, true)
  else ({ st with clients := cs }, false)

/-! ## Concrete documents and messages used by the claims -/

/-- An `<img>` element with no alt attribute. -/
def imgNoAlt : Elem := { baseElem .img with outerHTML := "<img>" }

/-- A heading element of level `n`. -/
def hElem (n : Nat) : Elem := { baseElem .heading with level := n }

/-- A table element with no `th` descendant. -/
def tblNoTh : Elem := { baseElem .table with outerHTML := "<table></table>" }

/-- The single inbox message of the end-to-end scenario: id `42`,
`Content.Body` holding the `<img>` markup. -/
def msg42 : Message := ⟨"42", none, none, some "<img>", some "Hello"⟩

/-! ## One-finding-per-element classifiers (for the partition claims) -/

def imgClassify (p : Nat × Elem) : Finding :=
  if imgAltBad p.2 then imgViolF p.1 p.2 else imgPassF p.1 p.2

def buttonClassify (p : Nat × Elem) : Finding :=
  if buttonBad p.2 then buttonViolF p.1 p.2 else buttonPassF p.1 p.2

def labelClassify (doc : List Elem) (p : Nat × Elem) : Finding :=
  if labelOutcome doc p.2 == .viol then labelViolF p.1 p.2 else labelPassF p.1 p.2

def linkClassify (p : Nat × Elem) : Finding :=
  if linkBad p.2 then linkViolF p.1 p.2 else linkPassF p.1 p.2

def tableClassify (p : Nat × Elem) : Finding :=
  if tableBad p.2 then tableViolF p.1 p.2 else tablePassF p.1 p.2

/-- The heading walk with one finding per heading, in walk order. -/
def headingAll : List (Nat × Elem) → Nat → List Finding
  | [], _ => []
  | (i, e) :: rest, lastLevel =>
    (if e.level > lastLevel + 1 ∧ 0 < lastLevel then headViolF i e lastLevel else headPassF i e)
      :: headingAll rest e.level

/-- The heading walk as the specification words it: the previous level
starts as `none`, a heading violates exactly when its level exceeds the
previous heading's level by more than one, and the very first heading
(previous `none`) never violates. -/
def specHeadingWalk : List (Nat × Elem) → Option Nat → List Finding × List Finding
  | [], _ => ([], [])
  | (i, e) :: rest, none =>
    ((specHeadingWalk rest (some e.level)).1,
      headPassF i e :: (specHeadingWalk rest (some e.level)).2)
  | (i, e) :: rest, some pl =>
    if e.level > pl + 1 then
      (headViolF i e pl :: (specHeadingWalk rest (some e.level)).1,
        (specHeadingWalk rest (some e.level)).2)
    else
      ((specHeadingWalk rest (some e.level)).1,
        headPassF i e :: (specHeadingWalk rest (some e.level)).2)

/-- A message whose only content is a `text/plain` part whose body
holds the literal two-character escape sequence backslash-n. -/
def msgTextOnly : Message :=
  ⟨"7", some [⟨some "text/plain; charset=utf-8", some "hello\\nworld"⟩], none, none, some "S"⟩

/-- An anchor with generic text but no `href` attribute. -/
def anchorNoHref : Elem := { baseElem .anchor with textContent := "Click here" }

/-! ## Helper lemmas -/

/-- Findings for rule id `r`. -/
def byId (r : String) (f : Finding) : Bool := f.id == r

theorem filter_of_forall_id {l : List Finding} {s : String} (h : ∀ f ∈ l, f.id = s)
    (r : String) : l.filter (byId r) = if s = r then l else [] := by
  by_cases hb : s = r
  · subst hb
    rw [if_pos rfl]
    refine List.filter_eq_self.mpr ?_
    intro f hf
    simp [byId, h f hf]
  · rw [if_neg hb]
    refine List.filter_eq_nil_iff.mpr ?_
    intro f hf
    simp [byId, h f hf]
    exact fun hc => hb hc

theorem mem_map_id {α : Type} {g : α → Finding} {s : String} (hg : ∀ a, (g a).id = s)
    {l : List α} : ∀ f ∈ l.map g, f.id = s := by
  intro f hf
  obtain ⟨a, _, rfl⟩ := List.mem_map.mp hf
  exact hg a

theorem imageAltViols_ids (doc : List Elem) :
    ∀ f ∈ imageAltViols doc, f.id = "image-alt" := by
  intro f hf
  unfold imageAltViols at hf
  obtain ⟨p, _, rfl⟩ := List.mem_map.mp hf
  rfl

theorem imageAltPasses_ids (doc : List Elem) :
    ∀ f ∈ imageAltPasses doc, f.id = "image-alt" := by
  intro f hf
  unfold imageAltPasses at hf
  obtain ⟨p, _, rfl⟩ := List.mem_map.mp hf
  rfl

theorem buttonNameViols_ids (doc : List Elem) :
    ∀ f ∈ buttonNameViols doc, f.id = "button-name" := by
  intro f hf
  unfold buttonNameViols at hf
  obtain ⟨p, _, rfl⟩ := List.mem_map.mp hf
  rfl

theorem buttonNamePasses_ids (doc : List Elem) :
    ∀ f ∈ buttonNamePasses doc, f.id = "button-name" := by
  intro f hf
  unfold buttonNamePasses at hf
  obtain ⟨p, _, rfl⟩ := List.mem_map.mp hf
  rfl

theorem labelViols_ids (doc : List Elem) :
    ∀ f ∈ labelViols doc, f.id = "label" := by
  intro f hf
  unfold labelViols at hf
  obtain ⟨p, _, rfl⟩ := List.mem_map.mp hf
  rfl

theorem labelPasses_ids (doc : List Elem) :
    ∀ f ∈ labelPasses doc, f.id = "label" := by
  intro f hf
  unfold labelPasses at hf
  obtain ⟨p, _, rfl⟩ := List.mem_map.mp hf
  rfl

theorem labelInaps_ids (doc : List Elem) :
    ∀ f ∈ labelInaps doc, f.id = "label" := by
  intro f hf
  unfold labelInaps at hf
  obtain ⟨p, _, rfl⟩ := List.mem_map.mp hf
  rfl

theorem linkNameViols_ids (doc : List Elem) :
    ∀ f ∈ linkNameViols doc, f.id = "link-name" := by
  intro f hf
  unfold linkNameViols at hf
  obtain ⟨p, _, rfl⟩ := List.mem_map.mp hf
  rfl

theorem linkNamePasses_ids (doc : List Elem) :
    ∀ f ∈ linkNamePasses doc, f.id = "link-name" := by
  intro f hf
  unfold linkNamePasses at hf
  obtain ⟨p, _, rfl⟩ := List.mem_map.mp hf
  rfl

theorem tableViols_ids (doc : List Elem) :
    ∀ f ∈ tableViols doc, f.id = "th-has-data-cells" := by
  intro f hf
  unfold tableViols at hf
  obtain ⟨p, _, rfl⟩ := List.mem_map.mp hf
  rfl

theorem tablePasses_ids (doc : List Elem) :
    ∀ f ∈ tablePasses doc, f.id = "th-has-data-cells" := by
  intro f hf
  unfold tablePasses at hf
  obtain ⟨p, _, rfl⟩ := List.mem_map.mp hf
  rfl

theorem headingWalk_fst_ids (xs : List (Nat × Elem)) (l : Nat) :
    ∀ f ∈ (headingWalk xs l).1, f.id = "heading-order" ∧ f.impact = some "moderate" := by
  induction xs generalizing l with
  | nil => simp [headingWalk]
  | cons x rest ih =>
    obtain ⟨i, e⟩ := x
    intro f hf
    by_cases hc : e.level > l + 1 ∧ 0 < l
    · rw [headingWalk, if_pos hc] at hf
      rcases List.mem_cons.mp hf with h | h
      · subst h; exact ⟨rfl, rfl⟩
      · exact ih e.level f h
    · rw [headingWalk, if_neg hc] at hf
      exact ih e.level f hf

theorem headingWalk_snd_ids (xs : List (Nat × Elem)) (l : Nat) :
    ∀ f ∈ (headingWalk xs l).2, f.id = "heading-order" := by
  induction xs generalizing l with
  | nil => simp [headingWalk]
  | cons x rest ih =>
    obtain ⟨i, e⟩ := x
    intro f hf
    by_cases hc : e.level > l + 1 ∧ 0 < l
    · rw [headingWalk, if_pos hc] at hf
      exact ih e.level f hf
    · rw [headingWalk, if_neg hc] at hf
      rcases List.mem_cons.mp hf with h | h
      · subst h; rfl
      · exact ih e.level f h

theorem headingViols_ids (doc : List Elem) : ∀ f ∈ headingViols doc, f.id = "heading-order" :=
  fun f hf => (headingWalk_fst_ids _ 0 f hf).1

theorem headingPasses_ids (doc : List Elem) : ∀ f ∈ headingPasses doc, f.id = "heading-order" :=
  headingWalk_snd_ids _ 0

theorem videoIncomplete_ids (doc : List Elem) :
    ∀ f ∈ videoIncomplete doc, f.id = "video-caption" := by
  intro f hf
  unfold videoIncomplete at hf
  split at hf <;> simp at hf
  subst hf; rfl

theorem canvasInapplicable_ids (doc : List Elem) :
    ∀ f ∈ canvasInapplicable doc, f.id = "canvas-replaced-text" := by
  intro f hf
  unfold canvasInapplicable at hf
  split at hf <;> simp at hf
  subst hf; rfl

/-- Filtering the merged violations by rule id picks out the single
contributing rule's chunk. -/
theorem violations_filter (doc : List Elem) (r : String) :
    ((scanDocument doc).violations).filter (byId r) =
      (if "image-alt" = r then imageAltViols doc else []) ++
      (if "button-name" = r then buttonNameViols doc else []) ++
      (if "label" = r then labelViols doc else []) ++
      (if "heading-order" = r then headingViols doc else []) ++
      (if "link-name" = r then linkNameViols doc else []) ++
      (if "th-has-data-cells" = r then tableViols doc else []) := by
  show (imageAltViols doc ++ buttonNameViols doc ++ labelViols doc ++
      headingViols doc ++ linkNameViols doc ++ tableViols doc).filter (byId r) = _
  rw [List.filter_append, List.filter_append, List.filter_append, List.filter_append,
    List.filter_append, filter_of_forall_id (imageAltViols_ids doc),
    filter_of_forall_id (buttonNameViols_ids doc), filter_of_forall_id (labelViols_ids doc),
    filter_of_forall_id (headingViols_ids doc), filter_of_forall_id (linkNameViols_ids doc),
    filter_of_forall_id (tableViols_ids doc)]

theorem passes_filter (doc : List Elem) (r : String) :
    ((scanDocument doc).passes).filter (byId r) =
      (if "image-alt" = r then imageAltPasses doc else []) ++
      (if "button-name" = r then buttonNamePasses doc else []) ++
      (if "label" = r then labelPasses doc else []) ++
      (if "heading-order" = r then headingPasses doc else []) ++
      (if "link-name" = r then linkNamePasses doc else []) ++
      (if "th-has-data-cells" = r then tablePasses doc else []) := by
  show (imageAltPasses doc ++ buttonNamePasses doc ++ labelPasses doc ++
      headingPasses doc ++ linkNamePasses doc ++ tablePasses doc).filter (byId r) = _
  rw [List.filter_append, List.filter_append, List.filter_append, List.filter_append,
    List.filter_append, filter_of_forall_id (imageAltPasses_ids doc),
    filter_of_forall_id (buttonNamePasses_ids doc), filter_of_forall_id (labelPasses_ids doc),
    filter_of_forall_id (headingPasses_ids doc), filter_of_forall_id (linkNamePasses_ids doc),
    filter_of_forall_id (tablePasses_ids doc)]

theorem incomplete_filter (doc : List Elem) (r : String) :
    ((scanDocument doc).incomplete).filter (byId r) =
      if "video-caption" = r then videoIncomplete doc else [] := by
  show (videoIncomplete doc).filter (byId r) = _
  exact filter_of_forall_id (videoIncomplete_ids doc) r

theorem inapplicable_filter (doc : List Elem) (r : String) :
    ((scanDocument doc).inapplicable).filter (byId r) =
      (if "label" = r then labelInaps doc else []) ++
      (if "canvas-replaced-text" = r then canvasInapplicable doc else []) := by
  show (labelInaps doc ++ canvasInapplicable doc).filter (byId r) = _
  rw [List.filter_append, filter_of_forall_id (labelInaps_ids doc),
    filter_of_forall_id (canvasInapplicable_ids doc)]

/-- The violating and passing halves of a two-way element partition,
taken together, carry exactly one finding per element. -/
theorem partition_map_perm {α β : Type} (p : α → Bool) (f g : α → β) (xs : List α) :
    List.Perm ((xs.filter p).map f ++ (xs.filter (fun a => !p a)).map g)
      (xs.map (fun a => if p a then f a else g a)) := by
  have hf : (xs.filter p).map f = (xs.filter p).map (fun a => if p a then f a else g a) := by
    refine List.map_congr_left ?_
    intro a ha
    have hp := (List.mem_filter.mp ha).2
    simp [hp]
  have hg : (xs.filter (fun a => !p a)).map g
      = (xs.filter (fun a => !p a)).map (fun a => if p a then f a else g a) := by
    refine List.map_congr_left ?_
    intro a ha
    have hp := (List.mem_filter.mp ha).2
    rw [Bool.not_eq_true'] at hp
    simp [hp]
  rw [hf, hg, ← List.map_append]
  exact (List.filter_append_perm p xs).map _

theorem headingWalk_append_perm (xs : List (Nat × Elem)) (l : Nat) :
    List.Perm ((headingWalk xs l).1 ++ (headingWalk xs l).2) (headingAll xs l) := by
  induction xs generalizing l with
  | nil => simp [headingWalk, headingAll]
  | cons x rest ih =>
    obtain ⟨i, e⟩ := x
    by_cases hc : e.level > l + 1 ∧ 0 < l
    · rw [headingWalk, headingAll, if_pos hc, if_pos hc, List.cons_append]
      exact (ih e.level).cons _
    · rw [headingWalk, headingAll, if_neg hc, if_neg hc]
      exact (List.perm_middle).trans ((ih e.level).cons _)

/-- Label rule: a violation can only be produced by a visible input. -/
theorem labelOutcome_viol_visible (doc : List Elem) (e : Elem)
    (h : labelOutcome doc e = .viol) : isHiddenInput e = false := by
  by_contra hc
  rw [Bool.not_eq_false] at hc
  rw [labelOutcome, if_pos hc] at h
  exact absurd h (by simp)

/-- Label rule: on a visible input the outcome is `viol` or `pass`. -/
theorem labelOutcome_visible_not_inap (doc : List Elem) (e : Elem)
    (h : isHiddenInput e = false) : labelOutcome doc e ≠ .inap := by
  rw [labelOutcome, if_neg (by simp [h])]
  by_cases ha : e.ariaLabel.getD "" == "" && e.ariaLabelledby.getD "" == ""
  · rw [if_pos ha]
    by_cases hl : hasLabelFor doc e.elemId <;> simp [hl]
  · rw [if_neg ha]
    simp

/-- Label rule: the outcome is `inap` exactly on hidden inputs. -/
theorem labelOutcome_inap_iff (doc : List Elem) (e : Elem) :
    (labelOutcome doc e == .inap) = isHiddenInput e := by
  by_cases hh : isHiddenInput e
  · rw [labelOutcome, if_pos hh, hh]
    rfl
  · rw [Bool.not_eq_true] at hh
    rw [hh]
    have := labelOutcome_visible_not_inap doc e hh
    simpa using this

/-! ## Claims -/

/-- C1, counterexample: on a transport failure the polling-level catch
broadcasts an event of kind `scan_error` — the very same kind the
listener uses for engine (scan) failures — not a distinct `PollFailed`
kind.  Concretely, a tick whose fetch rejects with "connection refused"
emits exactly one event, and its wire `type` equals that of a
scan-failure event. -/
theorem poll_failure_kind_counterexample :
    (tick (fun _ => Except.ok (scanDocument [])) initialState
        (Except.error "connection refused")).2 =
      [EmailEvent.scan_error none "connection refused"] ∧
    eventType (EmailEvent.scan_error none "connection refused") =
      eventType (EmailEvent.scan_error (some "9") "engine failure") :=
  ⟨rfl, rfl⟩

/-- C1 (amended): for every tick on which the fetch fails with a
transport error, the poller broadcasts one `scan_error` event carrying
only the error message (no email id) — the same event kind used for
scan failures, not a distinct one — the state is unchanged (so polling
continues on the fixed period) and the failure is never fatal. -/
theorem poll_failure_nonfatal (engine : String → Except String ScanResult)
    (st : ListenerState) (e : String) :
    tick engine st (Except.error e) = (st, [EmailEvent.scan_error none e]) :=
  rfl

/-- C9: when delivering the attach-time status event fails, `addClient`
removes the observer again yet still starts the poller, leaving the
registry polling with zero attached observers; only a later close
signal stops it. -/
theorem attach_failure_polling_without_observers (c : Nat) (lastId : Option String) :
    addClient ⟨lastId, false, []⟩ c false = (⟨lastId, true, []⟩, [], true) ∧
    closeClient ⟨lastId, true, []⟩ c = (⟨lastId, false, []⟩, true) := by
  constructor
  · simp [addClient]
  · simp [closeClient]

/-- C6, counterexample: the table rule's stable id in the code is
`th-has-data-cells`, not `table-headers`.  For a document holding one
table with zero header cells, no finding with id `table-headers` exists
in any collection, while the violation is filed under
`th-has-data-cells`. -/
theorem table_rule_id_counterexample :
    ((scanDocument [tblNoTh]).violations ++ (scanDocument [tblNoTh]).passes ++
        (scanDocument [tblNoTh]).incomplete ++ (scanDocument [tblNoTh]).inapplicable).filter
      (byId "table-headers") = [] ∧
    ((scanDocument [tblNoTh]).violations.filter (byId "th-has-data-cells")).length = 1 := by
  constructor
  · rfl
  · rfl

/-- C6 (amended): for every document, each table element with zero
header cells produces exactly one violation finding whose rule id is
the stable string `th-has-data-cells` with severity moderate, and each
table with at least one header cell produces a pass finding for that
same rule id. -/
theorem table_rule_findings (doc : List Elem) :
    ((scanDocument doc).violations.filter (byId "th-has-data-cells") =
      (((doc.filter isTable).enum.filter fun p => tableBad p.2).map
        fun p => tableViolF p.1 p.2)) ∧
    ((scanDocument doc).passes.filter (byId "th-has-data-cells") =
      (((doc.filter isTable).enum.filter fun p => !tableBad p.2).map
        fun p => tablePassF p.1 p.2)) ∧
    (∀ f ∈ (scanDocument doc).violations.filter (byId "th-has-data-cells"),
      f.impact = some "moderate") := by
  have hv : (scanDocument doc).violations.filter (byId "th-has-data-cells") = tableViols doc := by
    rw [violations_filter, if_neg (by decide), if_neg (by decide), if_neg (by decide),
      if_neg (by decide), if_neg (by decide), if_pos (by decide)]
    simp
  have hp : (scanDocument doc).passes.filter (byId "th-has-data-cells") = tablePasses doc := by
    rw [passes_filter, if_neg (by decide), if_neg (by decide), if_neg (by decide),
      if_neg (by decide), if_neg (by decide), if_pos (by decide)]
    simp
  refine ⟨hv, hp, ?_⟩
  rw [hv]
  intro f hf
  unfold tableViols at hf
  obtain ⟨p, _, rfl⟩ := List.mem_map.mp hf
  rfl

/-- On a successful fetch the tick runs the `.ok` branch. -/
theorem tick_ok_eq (engine : String → Except String ScanResult) (st : ListenerState)
    (d : EmailData) : tick engine st (Except.ok d) = tickOk engine st d := rfl

/-- The first component of a tick that observed a new email is the
state with the cursor advanced, whatever the body and engine did. -/
theorem tick_fst_of_new (engine : String → Except String ScanResult) (st : ListenerState)
    (d : EmailData) (h : (d.hasNewEmail && strictNeq d.emailId st.lastEmailId) = true) :
    (tick engine st (Except.ok d)).1 = { st with lastEmailId := d.emailId } := by
  rw [tick_ok_eq]
  unfold tickOk
  rw [if_pos h]
  dsimp only
  split
  · split <;> rfl
  · rfl

/-- C4: a successful fetch returning an item whose identifier equals
the cursor, or returning no item, emits no event and leaves the state
(hence the cursor) unchanged; consequently a second consecutive
successful fetch of the same identifier produces zero events and does
not move the state again. -/
theorem poller_dedup (engine : String → Except String ScanResult) (st : ListenerState)
    (d : EmailData) :
    ((d.hasNewEmail = false ∨ ∃ x, d.emailId = some x ∧ st.lastEmailId = some x) →
      tick engine st (Except.ok d) = (st, [])) ∧
    (∀ x, d.hasNewEmail = true → d.emailId = some x →
      tick engine (tick engine st (Except.ok d)).1 (Except.ok d) =
        ((tick engine st (Except.ok d)).1, [])) := by
  constructor
  · rintro (h | ⟨x, hd, hs⟩)
    · rw [tick_ok_eq]
      unfold tickOk
      rw [if_neg (by simp [h])]
    · rw [tick_ok_eq]
      unfold tickOk
      rw [if_neg (by simp [hd, hs, strictNeq])]
  · intro x hN hId
    have hlast : (tick engine st (Except.ok d)).1.lastEmailId = some x := by
      by_cases hc : strictNeq d.emailId st.lastEmailId = true
      · rw [tick_fst_of_new engine st d (by rw [hN, hc]; rfl), hId]
      · have hst : st.lastEmailId = some x := by
          rw [hId] at hc
          rcases hy : st.lastEmailId with _ | y
          · rw [hy] at hc
            exact absurd rfl hc
          · rw [hy] at hc
            have : (x != y) = false := by
              revert hc
              unfold strictNeq
              intro hc
              exact Bool.not_eq_true _ ▸ Bool.of_not_eq_true hc
            simp at this
            rw [this]
        have : tick engine st (Except.ok d) = (st, []) := by
          rw [tick_ok_eq]
          unfold tickOk
          rw [if_neg (by simp [hId, hst, strictNeq])]
        rw [this, hst]
    rw [tick_ok_eq]
    unfold tickOk
    rw [if_neg (by simp [hId, hlast, strictNeq])]

/-- C4, witness: an item equal to the cursor emits nothing, and a
repeated fetch of id `42` emits nothing after the first tick. -/
theorem poller_dedup_witness :
    tick (fun _ => Except.ok (scanDocument [])) ⟨some "42", false, []⟩
        (Except.ok ⟨true, some "42", some "", some "s"⟩) = (⟨some "42", false, []⟩, []) ∧
    tick (fun _ => Except.ok (scanDocument []))
        (tick (fun _ => Except.ok (scanDocument [])) initialState
          (Except.ok ⟨true, some "42", some "", some "s"⟩)).1
        (Except.ok ⟨true, some "42", some "", some "s"⟩) =
      ((tick (fun _ => Except.ok (scanDocument [])) initialState
          (Except.ok ⟨true, some "42", some "", some "s"⟩)).1, []) :=
  ⟨(poller_dedup _ _ _).1 (Or.inr ⟨"42", rfl, rfl⟩),
    (poller_dedup _ _ _).2 "42" rfl rfl⟩

/-- C2: with the inbox holding exactly one message of id `42` whose
HTML body renders to a single `img` element with no alt attribute, the
first polling tick emits, in order, an `email_received` event for id
`42` with content flagged present, then a `scan_complete` event whose
report holds exactly one `image-alt` violation and zero `image-alt`
passes. -/
theorem first_tick_end_to_end (render : String → List Elem)
    (hp : render "<img>" = [imgNoAlt]) :
    tick (fun h => Except.ok (scanHtml render h)) initialState
        (Except.ok (checkForEmails [msg42])) =
      ({ initialState with lastEmailId := some "42" },
        [EmailEvent.email_received "42" "Hello" true,
         EmailEvent.scan_complete "42" "Hello" (scanDocument [imgNoAlt])]) ∧
    ((scanDocument [imgNoAlt]).violations.filter (byId "image-alt")).length = 1 ∧
    ((scanDocument [imgNoAlt]).passes.filter (byId "image-alt")).length = 0 := by
  refine ⟨?_, rfl, rfl⟩
  have hc : checkForEmails [msg42] = ⟨true, some "42", some "<img>", some "Hello"⟩ := rfl
  rw [hc, tick_ok_eq]
  simp +decide only [tickOk, scanHtml, Option.getD_some, if_true]
  rw [hp, show ("<img>" != "") = true from rfl]

/-- C2, witness: instantiated at the rendering that maps the `<img>`
markup to the one-element document. -/
theorem first_tick_end_to_end_witness :
    tick (fun h => Except.ok (scanHtml (fun _ => [imgNoAlt]) h)) initialState
        (Except.ok (checkForEmails [msg42])) =
      ({ initialState with lastEmailId := some "42" },
        [EmailEvent.email_received "42" "Hello" true,
         EmailEvent.scan_complete "42" "Hello" (scanDocument [imgNoAlt])]) :=
  (first_tick_end_to_end (fun _ => [imgNoAlt]) rfl).1

/-- C3: `addClient` adds the observer to the set and delivers the
synthetic status event to that observer only; it starts the poller
exactly when the registry was previously empty (stated under the
registry invariant that polling tracks non-emptiness, which holds on
every delivery-failure-free trace); the close handler removes the
observer and stops the poller exactly when the set drains; and the
scenario attach A, attach B, close A, close B performs the
`Polling → Idle` transition exactly once, not twice. -/
theorem registry_attach_detach_contract :
    (∀ st (c : Nat), c ∉ st.clients → (addClient st c true).1.clients = st.clients ++ [c]) ∧
    (∀ st (c : Nat), (addClient st c true).2.1 = [(c, statusEvent)]) ∧
    (∀ st (c : Nat) (ok : Bool), (st.isPolling = true ↔ st.clients ≠ []) →
      ((addClient st c ok).2.2 = true ↔ st.clients = [])) ∧
    (∀ st (c : Nat), (closeClient st c).1.clients = st.clients.erase c) ∧
    (∀ st (c : Nat), ((closeClient st c).2 = true ↔ st.clients.erase c = [])) ∧
    ((addClient initialState 0 true).2.2 = true ∧
      (addClient (addClient initialState 0 true).1 1 true).2.2 = false ∧
      (closeClient (addClient (addClient initialState 0 true).1 1 true).1 0).2 = false ∧
      (closeClient (closeClient
        (addClient (addClient initialState 0 true).1 1 true).1 0).1 1).2 = true ∧
      (closeClient (closeClient
        (addClient (addClient initialState 0 true).1 1 true).1 0).1 1).1 = initialState) := by
  refine ⟨?_, ?_, ?_, ?_, ?_, by decide⟩
  · intro st c hc
    simp [addClient, hc]
  · intro st c
    rfl
  · intro st c ok h
    have he : (addClient st c ok).2.2 = !st.isPolling := rfl
    rw [he, Bool.not_eq_true']
    constructor
    · intro hp
      by_contra hne
      have := h.mpr hne
      rw [hp] at this
      exact Bool.false_ne_true this
    · intro hcl
      by_contra hot
      have hpt : st.isPolling = true := by
        cases hb : st.isPolling
        · exact absurd hb hot
        · rfl
      exact h.mp hpt hcl
  · intro st c
    unfold closeClient
    dsimp only
    split <;> rfl
  · intro st c
    unfold closeClient
    dsimp only
    split
    · rename_i h
      simp only [List.isEmpty_iff] at h
      simp [h]
    · rename_i h
      simp only [List.isEmpty_iff] at h
      simp [h]

/-- C3, witness: attaching client 5 to the idle empty registry adds it,
and starts the poller since the registry was previously empty. -/
theorem registry_attach_detach_contract_witness :
    (5 ∉ initialState.clients ∧
      (addClient initialState 5 true).1.clients = initialState.clients ++ [5]) ∧
    ((initialState.isPolling = true ↔ initialState.clients ≠ []) ∧
      ((addClient initialState 5 true).2.2 = true ↔ initialState.clients = [])) :=
  ⟨⟨by decide, registry_attach_detach_contract.1 initialState 5 (by decide)⟩,
    ⟨by decide, registry_attach_detach_contract.2.2.1 initialState 5 true (by decide)⟩⟩

/-- Members of an enumeration are members of the underlying list. -/
theorem mem_of_mem_enumFrom {α : Type} {p : Nat × α} :
    ∀ {l : List α} {n : Nat}, p ∈ l.enumFrom n → p.2 ∈ l := by
  intro l
  induction l with
  | nil =>
    intro n h
    simp at h
  | cons a t ih =>
    intro n h
    rw [List.enumFrom_cons] at h
    rcases List.mem_cons.mp h with h | h
    · subst h
      exact List.mem_cons_self _ _
    · exact List.mem_cons_of_mem _ (ih h)

/-- With a positive previous level (as for any `h1..h6` heading), the
code's walk condition `level > last + 1 && last > 0` coincides with the
specification's `level exceeds the previous level by more than one`. -/
theorem headingWalk_eq_spec (xs : List (Nat × Elem)) (pl : Nat) (hpl : 1 ≤ pl)
    (h : ∀ p ∈ xs, 1 ≤ (p.2).level) :
    headingWalk xs pl = specHeadingWalk xs (some pl) := by
  induction xs generalizing pl with
  | nil => rfl
  | cons x rest ih =>
    obtain ⟨i, e⟩ := x
    have he : 1 ≤ e.level := h (i, e) (List.mem_cons_self _ _)
    have hrest : ∀ p ∈ rest, 1 ≤ (p.2).level := fun p hp => h p (List.mem_cons_of_mem _ hp)
    by_cases hc : e.level > pl + 1
    · rw [headingWalk, specHeadingWalk, if_pos ⟨hc, hpl⟩, if_pos hc, ih e.level he hrest]
    · rw [headingWalk, specHeadingWalk, if_neg (fun hand => hc hand.1), if_neg hc,
        ih e.level he hrest]

/-- From the initial `lastLevel = 0` the code's walk equals the
specification's walk started with no previous level. -/
theorem headingWalk_zero_eq_spec (xs : List (Nat × Elem))
    (h : ∀ p ∈ xs, 1 ≤ (p.2).level) :
    headingWalk xs 0 = specHeadingWalk xs none := by
  cases xs with
  | nil => rfl
  | cons x rest =>
    obtain ⟨i, e⟩ := x
    have he : 1 ≤ e.level := h (i, e) (List.mem_cons_self _ _)
    have hrest : ∀ p ∈ rest, 1 ≤ (p.2).level := fun p hp => h p (List.mem_cons_of_mem _ hp)
    rw [headingWalk, specHeadingWalk, if_neg (by simp),
      headingWalk_eq_spec rest e.level he hrest]

/-- C5: the heading-order rule walks headings in document order
tracking the last level seen; its findings are exactly those of the
specification walk in which a heading violates precisely when its level
exceeds the previous heading's level by more than one and the first
heading never violates; every violation has severity moderate; the
first heading always yields a pass; `h1, h3` yields exactly one
violation and `h1, h2, h3` yields none. -/
theorem heading_order_walk (doc : List Elem)
    (h : ∀ e ∈ doc, isHeading e = true → 1 ≤ e.level) :
    ((scanDocument doc).violations.filter (byId "heading-order") =
        (specHeadingWalk (doc.filter isHeading).enum none).1 ∧
      (scanDocument doc).passes.filter (byId "heading-order") =
        (specHeadingWalk (doc.filter isHeading).enum none).2) ∧
    (∀ f ∈ (scanDocument doc).violations.filter (byId "heading-order"),
      f.impact = some "moderate") ∧
    (∀ e hs, doc.filter isHeading = e :: hs → headPassF 0 e ∈ headingPasses doc) ∧
    (scanDocument [hElem 1, hElem 3]).violations.filter (byId "heading-order") =
      [headViolF 1 (hElem 3) 1] ∧
    (scanDocument [hElem 1, hElem 2, hElem 3]).violations.filter (byId "heading-order") = [] := by
  have hlv : ∀ p ∈ (doc.filter isHeading).enum, 1 ≤ (p.2).level := by
    intro p hp
    have hm : p.2 ∈ doc.filter isHeading := mem_of_mem_enumFrom hp
    have := List.mem_filter.mp hm
    exact h p.2 this.1 this.2
  have hv : (scanDocument doc).violations.filter (byId "heading-order") = headingViols doc := by
    rw [violations_filter, if_neg (by decide), if_neg (by decide), if_neg (by decide),
      if_pos (by decide), if_neg (by decide), if_neg (by decide)]
    simp
  have hpa : (scanDocument doc).passes.filter (byId "heading-order") = headingPasses doc := by
    rw [passes_filter, if_neg (by decide), if_neg (by decide), if_neg (by decide),
      if_pos (by decide), if_neg (by decide), if_neg (by decide)]
    simp
  refine ⟨⟨?_, ?_⟩, ?_, ?_, by decide, by decide⟩
  · rw [hv]
    unfold headingViols
    rw [headingWalk_zero_eq_spec _ hlv]
  · rw [hpa]
    unfold headingPasses
    rw [headingWalk_zero_eq_spec _ hlv]
  · rw [hv]
    intro f hf
    exact (headingWalk_fst_ids _ 0 f hf).2
  · intro e hs hfe
    unfold headingPasses
    rw [hfe]
    rw [show (e :: hs).enum = (0, e) :: hs.enumFrom 1 from rfl]
    rw [headingWalk, if_neg (by simp)]
    exact List.mem_cons_self _ _

/-- C5, witness: the `h1, h3` document instantiates the walk
characterization. -/
theorem heading_order_walk_witness :
    (∀ e ∈ [hElem 1, hElem 3], isHeading e = true → 1 ≤ e.level) ∧
    (scanDocument [hElem 1, hElem 3]).violations.filter (byId "heading-order") =
      (specHeadingWalk ([hElem 1, hElem 3].filter isHeading).enum none).1 :=
  ⟨by decide, (heading_order_walk [hElem 1, hElem 3] (by decide)).1.1⟩

/-- Per-rule projections of the merged collections. -/
theorem scanViols_image (doc : List Elem) :
    (scanDocument doc).violations.filter (byId "image-alt") = imageAltViols doc := by
  rw [violations_filter, if_pos (by decide), if_neg (by decide), if_neg (by decide), if_neg (by decide), if_neg (by decide), if_neg (by decide)]
  simp

theorem scanPasses_image (doc : List Elem) :
    (scanDocument doc).passes.filter (byId "image-alt") = imageAltPasses doc := by
  rw [passes_filter, if_pos (by decide), if_neg (by decide), if_neg (by decide), if_neg (by decide), if_neg (by decide), if_neg (by decide)]
  simp

theorem scanViols_button (doc : List Elem) :
    (scanDocument doc).violations.filter (byId "button-name") = buttonNameViols doc := by
  rw [violations_filter, if_neg (by decide), if_pos (by decide), if_neg (by decide), if_neg (by decide), if_neg (by decide), if_neg (by decide)]
  simp

theorem scanPasses_button (doc : List Elem) :
    (scanDocument doc).passes.filter (byId "button-name") = buttonNamePasses doc := by
  rw [passes_filter, if_neg (by decide), if_pos (by decide), if_neg (by decide), if_neg (by decide), if_neg (by decide), if_neg (by decide)]
  simp

theorem scanViols_labelRule (doc : List Elem) :
    (scanDocument doc).violations.filter (byId "label") = labelViols doc := by
  rw [violations_filter, if_neg (by decide), if_neg (by decide), if_pos (by decide), if_neg (by decide), if_neg (by decide), if_neg (by decide)]
  simp

theorem scanPasses_labelRule (doc : List Elem) :
    (scanDocument doc).passes.filter (byId "label") = labelPasses doc := by
  rw [passes_filter, if_neg (by decide), if_neg (by decide), if_pos (by decide), if_neg (by decide), if_neg (by decide), if_neg (by decide)]
  simp

theorem scanViols_heading (doc : List Elem) :
    (scanDocument doc).violations.filter (byId "heading-order") = headingViols doc := by
  rw [violations_filter, if_neg (by decide), if_neg (by decide), if_neg (by decide), if_pos (by decide), if_neg (by decide), if_neg (by decide)]
  simp

theorem scanPasses_heading (doc : List Elem) :
    (scanDocument doc).passes.filter (byId "heading-order") = headingPasses doc := by
  rw [passes_filter, if_neg (by decide), if_neg (by decide), if_neg (by decide), if_pos (by decide), if_neg (by decide), if_neg (by decide)]
  simp

theorem scanViols_link (doc : List Elem) :
    (scanDocument doc).violations.filter (byId "link-name") = linkNameViols doc := by
  rw [violations_filter, if_neg (by decide), if_neg (by decide), if_neg (by decide), if_neg (by decide), if_pos (by decide), if_neg (by decide)]
  simp

theorem scanPasses_link (doc : List Elem) :
    (scanDocument doc).passes.filter (byId "link-name") = linkNamePasses doc := by
  rw [passes_filter, if_neg (by decide), if_neg (by decide), if_neg (by decide), if_neg (by decide), if_pos (by decide), if_neg (by decide)]
  simp

theorem scanViols_tableRule (doc : List Elem) :
    (scanDocument doc).violations.filter (byId "th-has-data-cells") = tableViols doc := by
  rw [violations_filter, if_neg (by decide), if_neg (by decide), if_neg (by decide), if_neg (by decide), if_neg (by decide), if_pos (by decide)]
  simp

theorem scanPasses_tableRule (doc : List Elem) :
    (scanDocument doc).passes.filter (byId "th-has-data-cells") = tablePasses doc := by
  rw [passes_filter, if_neg (by decide), if_neg (by decide), if_neg (by decide), if_neg (by decide), if_neg (by decide), if_pos (by decide)]
  simp

/-- C10: the link-name rule evaluates only anchors carrying an `href`
attribute (`querySelectorAll('a[href]')`): the rule's findings are
exactly one per such anchor, no link-name finding appears in the
incomplete or inapplicable collections, and a document holding a single
anchor without `href` yields no link-name finding at all, regardless of
its text content. -/
theorem link_name_href_only (doc : List Elem) :
    List.Perm
      ((scanDocument doc).violations.filter (byId "link-name") ++
        (scanDocument doc).passes.filter (byId "link-name"))
      (((doc.filter isLinkHref).enum).map linkClassify) ∧
    ((scanDocument doc).incomplete.filter (byId "link-name") = [] ∧
      (scanDocument doc).inapplicable.filter (byId "link-name") = []) ∧
    (∀ e : Elem, e.tag = .anchor → e.href = none →
      ((scanDocument [e]).violations.filter (byId "link-name") = [] ∧
        (scanDocument [e]).passes.filter (byId "link-name") = [])) := by
  refine ⟨?_, ⟨?_, ?_⟩, ?_⟩
  · rw [scanViols_link, scanPasses_link]
    unfold linkNameViols linkNamePasses linkClassify
    exact partition_map_perm _ _ _ _
  · rw [incomplete_filter, if_neg (by decide)]
  · rw [inapplicable_filter, if_neg (by decide), if_neg (by decide)]
    rfl
  · intro e ht hh
    have hfl : [e].filter isLinkHref = [] := by
      simp [isLinkHref, ht, hh]
    constructor
    · rw [scanViols_link]
      simp [linkNameViols, hfl]
    · rw [scanPasses_link]
      simp [linkNamePasses, hfl]

/-- C10, witness: a `Click here` anchor with no `href` produces no
link-name finding. -/
theorem link_name_href_only_witness :
    anchorNoHref.tag = Tag.anchor ∧ anchorNoHref.href = none ∧
    ((scanDocument [anchorNoHref]).violations.filter (byId "link-name") = [] ∧
      (scanDocument [anchorNoHref]).passes.filter (byId "link-name") = []) :=
  ⟨rfl, rfl, (link_name_href_only []).2.2 anchorNoHref rfl rfl⟩

/-- Rule ids that contribute nothing to the violations collection. -/
theorem scanViols_none (doc : List Elem) (r : String)
    (h1 : "image-alt" ≠ r) (h2 : "button-name" ≠ r) (h3 : "label" ≠ r)
    (h4 : "heading-order" ≠ r) (h5 : "link-name" ≠ r) (h6 : "th-has-data-cells" ≠ r) :
    (scanDocument doc).violations.filter (byId r) = [] := by
  rw [violations_filter, if_neg h1, if_neg h2, if_neg h3, if_neg h4, if_neg h5, if_neg h6]
  rfl

/-- Rule ids that contribute nothing to the passes collection. -/
theorem scanPasses_none (doc : List Elem) (r : String)
    (h1 : "image-alt" ≠ r) (h2 : "button-name" ≠ r) (h3 : "label" ≠ r)
    (h4 : "heading-order" ≠ r) (h5 : "link-name" ≠ r) (h6 : "th-has-data-cells" ≠ r) :
    (scanDocument doc).passes.filter (byId r) = [] := by
  rw [passes_filter, if_neg h1, if_neg h2, if_neg h3, if_neg h4, if_neg h5, if_neg h6]
  rfl

/-- Label violations come from the visible inputs only. -/
theorem labelViols_eq_visible (doc : List Elem) :
    labelViols doc =
      ((((doc.filter isInput).enum.filter fun p => !isHiddenInput p.2).filter
        fun p => labelOutcome doc p.2 == .viol).map fun p => labelViolF p.1 p.2) := by
  unfold labelViols
  rw [List.filter_filter]
  congr 1
  apply List.filter_congr
  intro p _
  by_cases hh : isHiddenInput p.2
  · have hout : labelOutcome doc p.2 = .inap := by
      rw [labelOutcome, if_pos hh]
    simp [hout, hh]
  · rw [Bool.not_eq_true] at hh
    simp [hh]

/-- Label passes come from the visible inputs only, and on those the
pass outcome is the complement of the violation outcome. -/
theorem labelPasses_eq_visible (doc : List Elem) :
    labelPasses doc =
      ((((doc.filter isInput).enum.filter fun p => !isHiddenInput p.2).filter
        fun p => !(labelOutcome doc p.2 == .viol)).map fun p => labelPassF p.1 p.2) := by
  unfold labelPasses
  rw [List.filter_filter]
  congr 1
  apply List.filter_congr
  intro p _
  by_cases hh : isHiddenInput p.2
  · have hout : labelOutcome doc p.2 = .inap := by
      rw [labelOutcome, if_pos hh]
    simp [hout, hh]
  · rw [Bool.not_eq_true] at hh
    have hni := labelOutcome_visible_not_inap doc p.2 hh
    cases hout : labelOutcome doc p.2
    · simp [hh]
    · simp [hh]
    · exact absurd hout hni

/-- The label rule's inapplicable findings are exactly one per hidden
input. -/
theorem labelInaps_eq_hidden (doc : List Elem) :
    labelInaps doc =
      (((doc.filter isInput).enum.filter fun p => isHiddenInput p.2).map
        fun p => labelInapF p.1 p.2) := by
  unfold labelInaps
  congr 1
  apply List.filter_congr
  intro p _
  exact labelOutcome_inap_iff doc p.2

/-- C8: for every document and every rule, each element matching the
rule's applicability predicate yields exactly one finding, landing in
exactly one of the violation or pass collections for that rule, with no
duplication across the four collections; hidden inputs surface only as
label-inapplicable findings, video presence only as the single
video-caption incomplete finding, and canvas absence only as the single
canvas inapplicable finding. -/
theorem rule_findings_partition (doc : List Elem) :
    (List.Perm ((scanDocument doc).violations.filter (byId "image-alt") ++
        (scanDocument doc).passes.filter (byId "image-alt"))
      (((doc.filter isImg).enum).map imgClassify) ∧
      (scanDocument doc).incomplete.filter (byId "image-alt") = [] ∧
      (scanDocument doc).inapplicable.filter (byId "image-alt") = []) ∧
    (List.Perm ((scanDocument doc).violations.filter (byId "button-name") ++
        (scanDocument doc).passes.filter (byId "button-name"))
      (((doc.filter isButton).enum).map buttonClassify) ∧
      (scanDocument doc).incomplete.filter (byId "button-name") = [] ∧
      (scanDocument doc).inapplicable.filter (byId "button-name") = []) ∧
    (List.Perm ((scanDocument doc).violations.filter (byId "label") ++
        (scanDocument doc).passes.filter (byId "label"))
      (((doc.filter isInput).enum.filter fun p => !isHiddenInput p.2).map
        (labelClassify doc)) ∧
      (scanDocument doc).inapplicable.filter (byId "label") =
        (((doc.filter isInput).enum.filter fun p => isHiddenInput p.2).map
          fun p => labelInapF p.1 p.2) ∧
      (scanDocument doc).incomplete.filter (byId "label") = []) ∧
    (List.Perm ((scanDocument doc).violations.filter (byId "heading-order") ++
        (scanDocument doc).passes.filter (byId "heading-order"))
      (headingAll (doc.filter isHeading).enum 0) ∧
      (scanDocument doc).incomplete.filter (byId "heading-order") = [] ∧
      (scanDocument doc).inapplicable.filter (byId "heading-order") = []) ∧
    (List.Perm ((scanDocument doc).violations.filter (byId "link-name") ++
        (scanDocument doc).passes.filter (byId "link-name"))
      (((doc.filter isLinkHref).enum).map linkClassify) ∧
      (scanDocument doc).incomplete.filter (byId "link-name") = [] ∧
      (scanDocument doc).inapplicable.filter (byId "link-name") = []) ∧
    (List.Perm ((scanDocument doc).violations.filter (byId "th-has-data-cells") ++
        (scanDocument doc).passes.filter (byId "th-has-data-cells"))
      (((doc.filter isTable).enum).map tableClassify) ∧
      (scanDocument doc).incomplete.filter (byId "th-has-data-cells") = [] ∧
      (scanDocument doc).inapplicable.filter (byId "th-has-data-cells") = []) ∧
    ((scanDocument doc).incomplete.filter (byId "video-caption") = videoIncomplete doc ∧
      (scanDocument doc).violations.filter (byId "video-caption") = [] ∧
      (scanDocument doc).passes.filter (byId "video-caption") = [] ∧
      (scanDocument doc).inapplicable.filter (byId "video-caption") = []) ∧
    ((scanDocument doc).inapplicable.filter (byId "canvas-replaced-text") =
        canvasInapplicable doc ∧
      (scanDocument doc).violations.filter (byId "canvas-replaced-text") = [] ∧
      (scanDocument doc).passes.filter (byId "canvas-replaced-text") = [] ∧
      (scanDocument doc).incomplete.filter (byId "canvas-replaced-text") = []) := by
  refine ⟨⟨?_, ?_, ?_⟩, ⟨?_, ?_, ?_⟩, ⟨?_, ?_, ?_⟩, ⟨?_, ?_, ?_⟩, ⟨?_, ?_, ?_⟩,
    ⟨?_, ?_, ?_⟩, ⟨?_, ?_, ?_, ?_⟩, ⟨?_, ?_, ?_, ?_⟩⟩
  · rw [scanViols_image, scanPasses_image]
    unfold imageAltViols imageAltPasses imgClassify
    exact partition_map_perm _ _ _ _
  · rw [incomplete_filter, if_neg (by decide)]
  · rw [inapplicable_filter, if_neg (by decide), if_neg (by decide)]
    rfl
  · rw [scanViols_button, scanPasses_button]
    unfold buttonNameViols buttonNamePasses buttonClassify
    exact partition_map_perm _ _ _ _
  · rw [incomplete_filter, if_neg (by decide)]
  · rw [inapplicable_filter, if_neg (by decide), if_neg (by decide)]
    rfl
  · rw [scanViols_labelRule, scanPasses_labelRule, labelViols_eq_visible,
      labelPasses_eq_visible]
    unfold labelClassify
    exact partition_map_perm _ _ _ _
  · rw [inapplicable_filter, if_pos (by decide), if_neg (by decide), labelInaps_eq_hidden]
    simp
  · rw [incomplete_filter, if_neg (by decide)]
  · rw [scanViols_heading, scanPasses_heading]
    unfold headingViols headingPasses
    exact headingWalk_append_perm _ 0
  · rw [incomplete_filter, if_neg (by decide)]
  · rw [inapplicable_filter, if_neg (by decide), if_neg (by decide)]
    rfl
  · rw [scanViols_link, scanPasses_link]
    unfold linkNameViols linkNamePasses linkClassify
    exact partition_map_perm _ _ _ _
  · rw [incomplete_filter, if_neg (by decide)]
  · rw [inapplicable_filter, if_neg (by decide), if_neg (by decide)]
    rfl
  · rw [scanViols_tableRule, scanPasses_tableRule]
    unfold tableViols tablePasses tableClassify
    exact partition_map_perm _ _ _ _
  · rw [incomplete_filter, if_neg (by decide)]
  · rw [inapplicable_filter, if_neg (by decide), if_neg (by decide)]
    rfl
  · rw [incomplete_filter, if_pos (by decide)]
  · exact scanViols_none doc _ (by decide) (by decide) (by decide) (by decide) (by decide)
      (by decide)
  · exact scanPasses_none doc _ (by decide) (by decide) (by decide) (by decide) (by decide)
      (by decide)
  · rw [inapplicable_filter, if_neg (by decide), if_neg (by decide)]
    rfl
  · rw [inapplicable_filter, if_neg (by decide), if_pos (by decide)]
    rfl
  · exact scanViols_none doc _ (by decide) (by decide) (by decide) (by decide) (by decide)
      (by decide)
  · exact scanPasses_none doc _ (by decide) (by decide) (by decide) (by decide) (by decide)
      (by decide)
  · rw [incomplete_filter, if_neg (by decide)]

/-- Precedence (1): a non-empty HTML-typed part body wins. -/
theorem extractMarkup_htmlPart (m : Message) (b : String) (hb : htmlPartBody m = b)
    (hne : (b == "") = false) : extractMarkup m = b := by
  unfold extractMarkup
  rw [hb]
  dsimp only
  rw [hne]
  simp [hne]

/-- Precedence (2): with no HTML part, a truthy top-level `Body` field
is used. -/
theorem extractMarkup_body (m : Message) (h0 : htmlPartBody m = "")
    (hb : (m.body.getD "" != "") = true) : extractMarkup m = m.body.getD "" := by
  unfold extractMarkup
  rw [h0, hb]
  simp only [beq_self_eq_true, Bool.true_and, if_true]
  rw [if_neg (by simp at hb ⊢; exact fun hc => absurd hc hb)]

/-- With no content in any of the three markup slots, the extracted
markup is empty. -/
theorem extractMarkup_empty (m : Message) (h0 : htmlPartBody m = "")
    (hb : m.body.getD "" = "") (hc : m.contentBody.getD "" = "") :
    extractMarkup m = "" := by
  unfold extractMarkup
  rw [h0, hb, hc]
  simp

/-- Precedence (3): with neither, a truthy `Content.Body` is used. -/
theorem extractMarkup_contentBody (m : Message) (h0 : htmlPartBody m = "")
    (hb : m.body.getD "" = "") (hc : (m.contentBody.getD "" != "") = true) :
    extractMarkup m = m.contentBody.getD "" := by
  unfold extractMarkup
  rw [h0, hb]
  dsimp only
  rw [hc]
  simp

/-- When the unescaped markup is non-empty and not whitespace-only, it
is returned as the body. -/
theorem checkForEmails_markup (m : Message)
    (hcond : (unescapeBody (extractMarkup m) == "" ||
      (jsTrim (unescapeBody (extractMarkup m))).length == 0) = false) :
    checkForEmails [m] =
      ⟨true, some m.ID, some (unescapeBody (extractMarkup m)),
        some (jsOr (m.contentSubject.getD "") "Test Email")⟩ := by
  simp only [checkForEmails]
  rw [if_neg (by rw [hcond]; exact Bool.false_ne_true)]

/-- When the unescaped markup is empty or whitespace-only and plain
text is available, the wrapper around the raw (not unescaped) text is
returned as the body. -/
theorem checkForEmails_fallback (m : Message)
    (hcond : (unescapeBody (extractMarkup m) == "" ||
      (jsTrim (unescapeBody (extractMarkup m))).length == 0) = true)
    (ht : (fallbackText m != "") = true) :
    checkForEmails [m] =
      ⟨true, some m.ID, some (wrapPlainText (fallbackText m)),
        some (jsOr (m.contentSubject.getD "") "Test Email")⟩ := by
  simp only [checkForEmails]
  rw [if_pos hcond, if_pos ht]

/-- C7, counterexample: for a message whose only content is a
`text/plain` part holding the literal escape sequence backslash-n, the
extracted body keeps that two-character sequence un-unescaped — the
synthesized plain-text wrapper path performs no unescaping (the four
replace passes ran before the fallback, on the empty string), while
unescaping the same text would have produced a real newline. -/
theorem fallback_unescape_counterexample :
    (checkForEmails [msgTextOnly]).htmlContent =
      some "<html><body><pre>hello\\nworld</pre></body></html>" ∧
    jsIncludes ((checkForEmails [msgTextOnly]).htmlContent.getD "") "\\n" = true ∧
    unescapeBody "hello\\nworld" = "hello\nworld" :=
  ⟨rfl, rfl, rfl⟩

/-- C7 (amended): `checkForEmails` extracts the newest message's body
by the precedence (1) HTML-typed part, (2) top-level body field,
(3) nested content body field, each unescaped exactly once when the
unescaped result is non-whitespace; and (4) when the extracted markup
is empty, a synthesized minimal HTML wrapper around the available plain
text, whose content is not unescaped (newline characters become `<br>`
but two-character escape sequences are kept verbatim). -/
theorem body_extraction_precedence (m : Message) :
    (∀ b, htmlPartBody m = b →
      (unescapeBody b == "" || (jsTrim (unescapeBody b)).length == 0) = false →
      (checkForEmails [m]).htmlContent = some (unescapeBody b)) ∧
    (htmlPartBody m = "" → (m.body.getD "" != "") = true →
      (unescapeBody (m.body.getD "") == "" ||
        (jsTrim (unescapeBody (m.body.getD ""))).length == 0) = false →
      (checkForEmails [m]).htmlContent = some (unescapeBody (m.body.getD ""))) ∧
    (htmlPartBody m = "" → m.body.getD "" = "" → (m.contentBody.getD "" != "") = true →
      (unescapeBody (m.contentBody.getD "") == "" ||
        (jsTrim (unescapeBody (m.contentBody.getD ""))).length == 0) = false →
      (checkForEmails [m]).htmlContent = some (unescapeBody (m.contentBody.getD ""))) ∧
    (htmlPartBody m = "" → m.body.getD "" = "" → m.contentBody.getD "" = "" →
      (fallbackText m != "") = true →
      (checkForEmails [m]).htmlContent = some (wrapPlainText (fallbackText m))) := by
  refine ⟨?_, ?_, ?_, ?_⟩
  · intro b hb hne
    have hbne : (b == "") = false := by
      cases hbeq : (b == "")
      · rfl
      · exfalso
        have hbv : b = "" := by simpa using hbeq
        rw [hbv, show unescapeBody "" = "" from rfl] at hne
        simp at hne
    have hx := extractMarkup_htmlPart m b hb hbne
    rw [checkForEmails_markup m (by rw [hx]; exact hne), hx]
  · intro h0 hb hne
    have hx := extractMarkup_body m h0 hb
    rw [checkForEmails_markup m (by rw [hx]; exact hne), hx]
  · intro h0 hb hc hne
    have hx := extractMarkup_contentBody m h0 hb hc
    rw [checkForEmails_markup m (by rw [hx]; exact hne), hx]
  · intro h0 hb hc ht
    have hx : extractMarkup m = "" := extractMarkup_empty m h0 hb hc
    rw [checkForEmails_fallback m (by rw [hx]; rfl) ht]

/-- C7, witness: precedence (3) on the `Content.Body`-only message and
precedence (4) on the text-part-only message. -/
theorem body_extraction_precedence_witness :
    (checkForEmails [msg42]).htmlContent = some (unescapeBody (msg42.contentBody.getD "")) ∧
    (checkForEmails [msgTextOnly]).htmlContent =
      some (wrapPlainText (fallbackText msgTextOnly)) :=
  ⟨(body_extraction_precedence msg42).2.2.1 rfl rfl rfl (by decide),
    (body_extraction_precedence msgTextOnly).2.2.2 rfl rfl rfl rfl⟩

/-- C6, witness: the zero-header table's violation finding, filed under
`th-has-data-cells` with severity moderate. -/
theorem table_rule_findings_witness :
    tableViolF 0 tblNoTh ∈
      (scanDocument [tblNoTh]).violations.filter (byId "th-has-data-cells") ∧
    (tableViolF 0 tblNoTh).impact = some "moderate" :=
  ⟨by decide, (table_rule_findings [tblNoTh]).2.2 (tableViolF 0 tblNoTh) (by decide)⟩

end AccessTime
